import Mathlib

/-!
Verification development for the pyfseconomy job-loading library.

The numeric model uses exact rationals (ℚ) for the loader and capacity
arithmetic, and real numbers (ℝ) for the spherical geometry helpers.
Machine floats in the original are modelled by their exact values.
-/

/-- Truncation toward zero, the behaviour of Python's `int()` applied to a
number: `int(2.7) = 2`, `int(-2.7) = -2`. -/
def intTrunc (q : ℚ) : ℤ := if q < 0 then ⌈q⌉ else ⌊q⌋

/-- One row of the FSE assignments dataframe, with the columns the library
reads: `Id`, `UnitType`, `Amount`, `Pay`, `Commodity`, `Type`, `AircraftId`. -/
structure Assignment where
  id : ℕ
  unitType : String
  amount : ℚ
  pay : ℚ
  commodity : String
  tripType : String
  aircraftId : ℕ
deriving DecidableEq, Inhabited

/-- Class `Aircraft` from aircraft.py: structural limits of one plane. -/
structure Aircraft where
  name : String
  mtow : ℚ
  seats : ℤ
  crew : ℤ
  empty_weight : ℚ
  fuel_total_gal : ℚ
deriving DecidableEq

/-- Constant `Aircraft.FUEL_KG_PER_GAL = 2.687344961` as an exact rational. -/
def Aircraft.FUEL_KG_PER_GAL : ℚ := 2687344961 / 1000000000

/-- Constant `Aircraft.PAX_WEIGHT_KG = 77`. -/
def Aircraft.PAX_WEIGHT_KG : ℚ := 77

/-- Method `Aircraft.get_max_pax`: `seats - crew - 1` (pax = seats - crew - pilot). -/
def Aircraft.get_max_pax (ac : Aircraft) : ℤ := ac.seats - ac.crew - 1

/-- Method `Aircraft.get_pax_cargo_for_fuel`: fuel weight from the fuel fraction,
available payload = MTOW - empty weight - fuel weight, and available pax =
`min(get_max_pax(), int(available_payload / PAX_WEIGHT_KG))` where `int` is
Python truncation toward zero. -/
def Aircraft.get_pax_cargo_for_fuel (ac : Aircraft) (fuel_percent : ℚ) : ℤ × ℚ :=
  let fuel_weight := fuel_percent * ac.fuel_total_gal * Aircraft.FUEL_KG_PER_GAL
  let available_payload := ac.mtow - ac.empty_weight - fuel_weight
  let available_pax :=
    min ac.get_max_pax (intTrunc (available_payload / Aircraft.PAX_WEIGHT_KG))
  (available_pax, available_payload)

/-- The weight used for an assignment everywhere the library compares against
payload: `Amount`, multiplied by `PAX_WEIGHT_KG` for passenger jobs
(utils.py lines 28-29 and 70-73). -/
def effectiveWeight (a : Assignment) : ℚ :=
  if a.unitType = "passengers" then a.amount * Aircraft.PAX_WEIGHT_KG else a.amount

/-- Passenger head count an assignment occupies (0 for cargo jobs). -/
def paxCount (a : Assignment) : ℚ :=
  if a.unitType = "passengers" then a.amount else 0

/-- The `str(TripTypes.VIP) or str(TripTypes.ALL_IN)` test from utils.py line 58-60. -/
def isExclusive (a : Assignment) : Bool :=
  (a.tripType == "All-In") || (a.tripType == "VIP")

/-- The `(value, id)` list built by `order_assignment_by_value` before
sorting: jobs with `Pay > 0` and `Amount > 0`, in input order, mapped to
`(Id, Pay / weight)`.  With unique ids this is exactly the Python dict's
item list. -/
def valueList (assignments : List Assignment) : List (ℕ × ℚ) :=
  (assignments.filter fun a => decide (0 < a.pay) && decide (0 < a.amount)).map
    fun a => (a.id, a.pay / effectiveWeight a)

/-- Descending comparison on value density used by the sort
(`sorted(..., key=itemgetter(1), reverse=True)`). -/
def densityGE (x y : ℕ × ℚ) : Prop := y.2 ≤ x.2

instance : DecidableRel densityGE := fun x y => inferInstanceAs (Decidable (y.2 ≤ x.2))

instance : IsTotal (ℕ × ℚ) densityGE := ⟨fun a b => le_total b.2 a.2⟩

instance : IsTrans (ℕ × ℚ) densityGE := ⟨fun _ _ _ h1 h2 => le_trans h2 h1⟩

/-- Function `order_assignment_by_value` from utils.py: filter to positive pay and
amount, compute value density, sort descending by density.  Python's
`sorted` is stable; `List.insertionSort` with the non-strict descending
relation is the stable descending sort. -/
def order_assignment_by_value (assignments : List Assignment) : List (ℕ × ℚ) :=
  List.insertionSort densityGE (valueList assignments)

/-- Human label for a loaded assignment (utils.py line 57). -/
def assignmentName (a : Assignment) : String :=
  toString a.amount ++ " " ++ a.commodity

/-- The loop body of `load_assignments` (utils.py lines 51-87), structurally
recursive over the ranked list, threading remaining payload and pax.
`initPayload` is the loop-invariant starting payload used by the
exclusive-job guard `remaining_payload != intial_remaining_payload`. -/
def loadAssignmentsGo (byId : ℕ → Assignment) (initPayload : ℚ) (aircraftId : ℕ) :
    List (ℕ × ℚ) → ℚ → ℚ → ℚ × List (ℕ × String)
  | [], _, _ => (0, [])
  | (i, _) :: rest, payload, pax =>
    let a := byId i
    if isExclusive a = true ∧ payload ≠ initPayload then
      -- warning printed, job skipped
      loadAssignmentsGo byId initPayload aircraftId rest payload pax
    else
      if (a.tripType = "All-In" → aircraftId = a.aircraftId)
          ∧ (a.unitType = "passengers" → a.amount ≤ pax)
          ∧ effectiveWeight a ≤ payload then
        if isExclusive a = true then
          -- loaded, then `break`: one exclusive payload and no more jobs
          (a.pay, [(i, assignmentName a)])
        else
          let tail := loadAssignmentsGo byId initPayload aircraftId rest
            (payload - effectiveWeight a)
            (if a.unitType = "passengers" then pax - a.amount else pax)
          (a.pay + tail.1, (i, assignmentName a) :: tail.2)
      else
        loadAssignmentsGo byId initPayload aircraftId rest payload pax

/-- Function `load_assignments` from utils.py: loads ranked assignments in order up to
the remaining payload and pax, returning total value and loaded ids. -/
def load_assignments (assignment_list : List (ℕ × ℚ)) (assignments_by_id : ℕ → Assignment)
    (intial_remaining_payload intial_remaining_pax : ℚ) (aircraft_id : ℕ) :
    ℚ × List (ℕ × String) :=
  loadAssignmentsGo assignments_by_id intial_remaining_payload aircraft_id
    assignment_list intial_remaining_payload intial_remaining_pax

/-- Total loaded weight of a plan: cargo kg plus passenger amounts converted
at 77 kg per person, resolved through the job table. -/
def planWeight (byId : ℕ → Assignment) (plan : List (ℕ × String)) : ℚ :=
  (plan.map fun p => effectiveWeight (byId p.1)).sum

/-- Total loaded passenger count of a plan. -/
def planPaxCount (byId : ℕ → Assignment) (plan : List (ℕ × String)) : ℚ :=
  (plan.map fun p => paxCount (byId p.1)).sum

/-- Exception `PlaneLoadingError` from utils.py. -/
structure PlaneLoadingError where
  msg : String

/-- The lookup `assignments.set_index("Id")` followed by `.at` lookups: resolve an id to
its row (rows have unique ids in the intended use). -/
def setIndexById (assignments : List Assignment) : ℕ → Assignment :=
  fun i => (assignments.find? fun a => a.id == i).getD default

/-- Function `plane_loader` from utils.py lines 92-122: pick starting capacities from
`aircraft_data` if present, else from explicit `max_payload`/`max_pax`, else
raise `PlaneLoadingError`; then rank and load. -/
def plane_loader (assignments : List Assignment) (aircraft_id : ℕ)
    (max_payload max_pax : Option ℚ) (fuel_pct : ℚ) (aircraft_data : Option Aircraft) :
    Except PlaneLoadingError (ℚ × List (ℕ × String)) :=
  let assignments_by_id := setIndexById assignments
  match aircraft_data with
  | some data =>
    let sp := data.get_pax_cargo_for_fuel fuel_pct
    let assignment_values := order_assignment_by_value assignments
    .ok (load_assignments assignment_values assignments_by_id sp.2 (sp.1 : ℚ) aircraft_id)
  | none =>
    match max_payload, max_pax with
    | some starting_payload, some starting_pax =>
      let assignment_values := order_assignment_by_value assignments
      .ok (load_assignments assignment_values assignments_by_id starting_payload starting_pax
        aircraft_id)
    | _, _ => .error ⟨"Expect max_payload and max_pax or aircraft_data"⟩

/-- Whether a `plane_loader` call failed with `PlaneLoadingError`. -/
def raisedError {α : Type} : Except PlaneLoadingError α → Bool
  | .error _ => true
  | .ok _ => false

/-- Constant `GeoLocation.MIN_LAT`. -/
noncomputable def MIN_LAT : ℝ := -(Real.pi / 2)

/-- Constant `GeoLocation.MAX_LAT`. -/
noncomputable def MAX_LAT : ℝ := Real.pi / 2

/-- Constant `GeoLocation.MIN_LON`. -/
noncomputable def MIN_LON : ℝ := -Real.pi

/-- Constant `GeoLocation.MAX_LON`. -/
noncomputable def MAX_LON : ℝ := Real.pi

/-- Constant `GeoLocation.EARTH_RADIUS_KM`. -/
noncomputable def EARTH_RADIUS_KM : ℝ := 6371.01

/-- Conversion `math.radians`. -/
noncomputable def radiansOfDegrees (x : ℝ) : ℝ := x * Real.pi / 180

/-- Conversion `math.degrees`. -/
noncomputable def degreesOfRadians (x : ℝ) : ℝ := x * 180 / Real.pi

/-- Class `GeoLocation` from utils.py: a point stored in radians. -/
structure GeoLocation where
  rad_lat : ℝ
  rad_lon : ℝ

/-- The `GeoLocation.__init__` conversion from degrees. -/
noncomputable def GeoLocation.ofDegrees (lat lon : ℝ) : GeoLocation :=
  ⟨radiansOfDegrees lat, radiansOfDegrees lon⟩

open scoped Classical in
/-- Method `GeoLocation.bounding_coordinates` from utils.py lines 142-175: returns
`(min latitude, min longitude, max latitude, max longitude)` in degrees.
When the latitude band stays strictly inside the poles, longitudes are each
individually wrapped into `[-pi, pi]` by one addition or subtraction of
`2*pi`; otherwise the band is clamped and the full longitude range
returned. -/
noncomputable def GeoLocation.bounding_coordinates (g : GeoLocation)
    (distance radius : ℝ) : ℝ × ℝ × ℝ × ℝ :=
  let rad_dist := distance / radius
  let min_lat := g.rad_lat - rad_dist
  let max_lat := g.rad_lat + rad_dist
  if MIN_LAT < min_lat ∧ max_lat < MAX_LAT then
    let delta_lon := Real.arcsin (Real.sin rad_dist / Real.cos g.rad_lat)
    let min_lon0 := g.rad_lon - delta_lon
    let min_lon := if min_lon0 < MIN_LON then min_lon0 + 2 * Real.pi else min_lon0
    let max_lon0 := g.rad_lon + delta_lon
    let max_lon := if MAX_LON < max_lon0 then max_lon0 - 2 * Real.pi else max_lon0
    (degreesOfRadians min_lat, degreesOfRadians min_lon,
      degreesOfRadians max_lat, degreesOfRadians max_lon)
  else
    (degreesOfRadians (max min_lat MIN_LAT), degreesOfRadians MIN_LON,
      degreesOfRadians (min max_lat MAX_LAT), degreesOfRadians MAX_LON)

/-- Modelled from the spec: the great-circle central angle between two points
on the sphere.  The repository's exact distance check delegates to an
external WGS84 geodesic library, which is out of scope; claim C1 speaks of
great-circle distance on the sphere the bounding box assumes. -/
noncomputable def sphericalCentralAngle (a b : GeoLocation) : ℝ :=
  Real.arccos (Real.sin a.rad_lat * Real.sin b.rad_lat +
    Real.cos a.rad_lat * Real.cos b.rad_lat * Real.cos (a.rad_lon - b.rad_lon))

/-- Modelled from the spec: great-circle distance in km on the sphere of
radius `EARTH_RADIUS_KM`. -/
noncomputable def sphericalDistanceKm (a b : GeoLocation) : ℝ :=
  EARTH_RADIUS_KM * sphericalCentralAngle a b

/-- The caller's rectangular pre-filter (airports.py lines 85-87) on a box
`(minLat, minLon, maxLat, maxLon)`:
`min_lon <= lon <= max_lon` and `min_lat <= lat <= max_lat`, in degrees. -/
def inBoundingBox (box : ℝ × ℝ × ℝ × ℝ) (lat lon : ℝ) : Prop :=
  box.2.1 ≤ lon ∧ lon ≤ box.2.2.2 ∧ box.1 ≤ lat ∧ lat ≤ box.2.2.1

/-- Claim C2's reference definition, written from the claim's words: maxPax
is `seats - crew - 1` floored at 0, and the passenger component uses
mathematical floor of `availablePayloadKg / 77`. -/
def claimedCapacityFor (ac : Aircraft) (fuelFraction : ℚ) : ℤ × ℚ :=
  let fuelWeightKg := fuelFraction * ac.fuel_total_gal * Aircraft.FUEL_KG_PER_GAL
  let availablePayloadKg := ac.mtow - ac.empty_weight - fuelWeightKg
  let maxPax := max (ac.seats - ac.crew - 1) 0
  (min maxPax ⌊availablePayloadKg / 77⌋, availablePayloadKg)

/-- Claim C2 as amended: maxPax is `seats - crew - 1` with no floor at 0, and
the division `availablePayloadKg / 77` is truncated toward zero (for a
negative payload this is `-⌊-(availablePayloadKg / 77)⌋`, one more than the
mathematical floor at non-integer arguments). -/
def amendedCapacityFor (ac : Aircraft) (fuelFraction : ℚ) : ℤ × ℚ :=
  let fuelWeightKg := fuelFraction * ac.fuel_total_gal * Aircraft.FUEL_KG_PER_GAL
  let availablePayloadKg := ac.mtow - ac.empty_weight - fuelWeightKg
  let maxPax := ac.seats - ac.crew - 1
  (min maxPax
      (if availablePayloadKg < 0 then -⌊-(availablePayloadKg / 77)⌋
        else ⌊availablePayloadKg / 77⌋),
    availablePayloadKg)

theorem intTrunc_mono {x y : ℚ} (h : x ≤ y) : intTrunc x ≤ intTrunc y := by
  unfold intTrunc
  split_ifs with hx hy hy'
  · exact Int.ceil_mono h
  · have h1 : ⌈x⌉ ≤ 0 := Int.ceil_le.mpr (by exact_mod_cast hx.le)
    have h2 : (0 : ℤ) ≤ ⌊y⌋ := Int.floor_nonneg.mpr (le_of_not_lt hy)
    omega
  · exact absurd (lt_of_le_of_lt h hy') hx
  · exact Int.floor_mono h

theorem intTrunc_nonneg {q : ℚ} (h : 0 ≤ q) : 0 ≤ intTrunc q := by
  unfold intTrunc
  rw [if_neg (not_lt.mpr h)]
  exact Int.floor_nonneg.mpr h

/-- Claim C2 (counterexample): on an aircraft with seats = 2, crew = 0,
MTOW = 0, empty weight = 100 and no fuel, the code returns
`min(1, int(-100/77)) = -1` passengers while the claimed definition gives
`min(1, floor(-100/77)) = -2`. -/
theorem claimed_capacity_counterexample :
    Aircraft.get_pax_cargo_for_fuel ⟨"X", 0, 2, 0, 100, 0⟩ 0 ≠
      claimedCapacityFor ⟨"X", 0, 2, 0, 100, 0⟩ 0 := by
  have h1 : Aircraft.get_pax_cargo_for_fuel ⟨"X", 0, 2, 0, 100, 0⟩ 0 = (-1, -100) := by
    unfold Aircraft.get_pax_cargo_for_fuel intTrunc Aircraft.get_max_pax
    norm_num [Aircraft.FUEL_KG_PER_GAL, Aircraft.PAX_WEIGHT_KG]
    rw [show ⌈(-(100 / 77) : ℚ)⌉ = -1 by rw [Int.ceil_eq_iff]; norm_num]
    omega
  have h2 : claimedCapacityFor ⟨"X", 0, 2, 0, 100, 0⟩ 0 = (-2, -100) := by
    unfold claimedCapacityFor
    norm_num [Aircraft.FUEL_KG_PER_GAL]
  rw [h1, h2]
  decide

/-- Claim C2 as amended: `get_pax_cargo_for_fuel` agrees everywhere with the
amended reference definition (no floor at 0 on maxPax, truncation toward
zero instead of floor). -/
theorem get_pax_cargo_for_fuel_eq_amended (ac : Aircraft) (f : ℚ) :
    ac.get_pax_cargo_for_fuel f = amendedCapacityFor ac f := by
  unfold Aircraft.get_pax_cargo_for_fuel amendedCapacityFor Aircraft.get_max_pax intTrunc
  have h77 : (Aircraft.PAX_WEIGHT_KG : ℚ) = 77 := rfl
  rw [h77]
  refine Prod.ext ?_ rfl
  simp only
  congr 1
  have hiff : (ac.mtow - ac.empty_weight - f * ac.fuel_total_gal * Aircraft.FUEL_KG_PER_GAL)
      / 77 < 0 ↔
      ac.mtow - ac.empty_weight - f * ac.fuel_total_gal * Aircraft.FUEL_KG_PER_GAL < 0 := by
    rw [div_lt_iff₀ (by norm_num : (0:ℚ) < 77), zero_mul]
  by_cases hneg :
      ac.mtow - ac.empty_weight - f * ac.fuel_total_gal * Aircraft.FUEL_KG_PER_GAL < 0
  · rw [if_pos (hiff.mpr hneg), if_pos hneg, Int.floor_neg, neg_neg]
  · rw [if_neg (fun hc => hneg (hiff.mp hc)), if_neg hneg]

/-- Claim C3 (counterexample): the code can return a negative passenger
count: with MTOW = 0, empty weight = 100, seats = 2, crew = 0 and no fuel
the passenger component is `min(1, -1) = -1 < 0`. -/
theorem capacity_passenger_nonneg_counterexample :
    (Aircraft.get_pax_cargo_for_fuel ⟨"Y", 0, 2, 0, 100, 0⟩ 0).1 < 0 := by
  have h1 : Aircraft.get_pax_cargo_for_fuel ⟨"Y", 0, 2, 0, 100, 0⟩ 0 = (-1, -100) := by
    unfold Aircraft.get_pax_cargo_for_fuel intTrunc Aircraft.get_max_pax
    norm_num [Aircraft.FUEL_KG_PER_GAL, Aircraft.PAX_WEIGHT_KG]
    rw [show ⌈(-(100 / 77) : ℚ)⌉ = -1 by rw [Int.ceil_eq_iff]; norm_num]
    omega
  rw [h1]
  decide

/-- Claim C3 as amended: the passenger component never exceeds
`seats - crew - 1`, and it is non-negative provided the available payload is
non-negative and `seats - crew - 1` is non-negative. -/
theorem capacity_passenger_bounds (ac : Aircraft) (f : ℚ) :
    (ac.get_pax_cargo_for_fuel f).1 ≤ ac.get_max_pax ∧
      (0 ≤ (ac.get_pax_cargo_for_fuel f).2 → 0 ≤ ac.get_max_pax →
        0 ≤ (ac.get_pax_cargo_for_fuel f).1) := by
  constructor
  · exact min_le_left _ _
  · intro hpay hmax
    refine le_min hmax (intTrunc_nonneg ?_)
    exact div_nonneg hpay (by norm_num [Aircraft.PAX_WEIGHT_KG])

/-- Witness for the amended claim C3 at a concrete aircraft with positive
payload and seat margin. -/
theorem capacity_passenger_bounds_witness :
    (0:ℚ) ≤ (Aircraft.get_pax_cargo_for_fuel ⟨"W", 1000, 4, 1, 500, 0⟩ 1).2 ∧
      (Aircraft.get_pax_cargo_for_fuel ⟨"W", 1000, 4, 1, 500, 0⟩ 1).1 ≤
        Aircraft.get_max_pax ⟨"W", 1000, 4, 1, 500, 0⟩ ∧
      0 ≤ (Aircraft.get_pax_cargo_for_fuel ⟨"W", 1000, 4, 1, 500, 0⟩ 1).1 :=
  have hpay : (0:ℚ) ≤ (Aircraft.get_pax_cargo_for_fuel ⟨"W", 1000, 4, 1, 500, 0⟩ 1).2 := by
    norm_num [Aircraft.get_pax_cargo_for_fuel, Aircraft.FUEL_KG_PER_GAL]
  have hmax : (0:ℤ) ≤ Aircraft.get_max_pax ⟨"W", 1000, 4, 1, 500, 0⟩ := by
    norm_num [Aircraft.get_max_pax]
  ⟨hpay, (capacity_passenger_bounds ⟨"W", 1000, 4, 1, 500, 0⟩ 1).1,
    (capacity_passenger_bounds ⟨"W", 1000, 4, 1, 500, 0⟩ 1).2 hpay hmax⟩

/-- Claim C8: both components of `get_pax_cargo_for_fuel` are monotonically
non-increasing in the fuel fraction, given non-negative total fuel
capacity. -/
theorem capacity_monotone_in_fuel (ac : Aircraft) (f1 f2 : ℚ)
    (hfuel : 0 ≤ ac.fuel_total_gal) (h : f1 ≤ f2) :
    (ac.get_pax_cargo_for_fuel f2).2 ≤ (ac.get_pax_cargo_for_fuel f1).2 ∧
      (ac.get_pax_cargo_for_fuel f2).1 ≤ (ac.get_pax_cargo_for_fuel f1).1 := by
  have hc : (0:ℚ) ≤ Aircraft.FUEL_KG_PER_GAL := by norm_num [Aircraft.FUEL_KG_PER_GAL]
  have hw : f1 * ac.fuel_total_gal * Aircraft.FUEL_KG_PER_GAL ≤
      f2 * ac.fuel_total_gal * Aircraft.FUEL_KG_PER_GAL :=
    mul_le_mul_of_nonneg_right (mul_le_mul_of_nonneg_right h hfuel) hc
  have hpay : (ac.get_pax_cargo_for_fuel f2).2 ≤ (ac.get_pax_cargo_for_fuel f1).2 := by
    unfold Aircraft.get_pax_cargo_for_fuel
    simp only
    linarith
  refine ⟨hpay, ?_⟩
  unfold Aircraft.get_pax_cargo_for_fuel
  simp only
  refine min_le_min le_rfl (intTrunc_mono ?_)
  have h77 : (0:ℚ) < Aircraft.PAX_WEIGHT_KG := by norm_num [Aircraft.PAX_WEIGHT_KG]
  exact (div_le_div_iff_of_pos_right h77).mpr (by linarith)

/-- Witness for claim C8 at a concrete aircraft, fuel fractions 0 and 1. -/
theorem capacity_monotone_in_fuel_witness :
    (0:ℚ) ≤ Aircraft.fuel_total_gal ⟨"M", 1000, 4, 1, 500, 100⟩ ∧
      (Aircraft.get_pax_cargo_for_fuel ⟨"M", 1000, 4, 1, 500, 100⟩ 1).2 ≤
        (Aircraft.get_pax_cargo_for_fuel ⟨"M", 1000, 4, 1, 500, 100⟩ 0).2 ∧
      (Aircraft.get_pax_cargo_for_fuel ⟨"M", 1000, 4, 1, 500, 100⟩ 1).1 ≤
        (Aircraft.get_pax_cargo_for_fuel ⟨"M", 1000, 4, 1, 500, 100⟩ 0).1 :=
  have hfuel : (0:ℚ) ≤ Aircraft.fuel_total_gal ⟨"M", 1000, 4, 1, 500, 100⟩ := by norm_num
  ⟨hfuel,
    (capacity_monotone_in_fuel ⟨"M", 1000, 4, 1, 500, 100⟩ 0 1 hfuel (by norm_num)).1,
    (capacity_monotone_in_fuel ⟨"M", 1000, 4, 1, 500, 100⟩ 0 1 hfuel (by norm_num)).2⟩

theorem planWeight_nil (byId : ℕ → Assignment) : planWeight byId [] = 0 := rfl

theorem planWeight_cons (byId : ℕ → Assignment) (p : ℕ × String) (l : List (ℕ × String)) :
    planWeight byId (p :: l) = effectiveWeight (byId p.1) + planWeight byId l := by
  simp [planWeight]

theorem planPaxCount_nil (byId : ℕ → Assignment) : planPaxCount byId [] = 0 := rfl

theorem planPaxCount_cons (byId : ℕ → Assignment) (p : ℕ × String) (l : List (ℕ × String)) :
    planPaxCount byId (p :: l) = paxCount (byId p.1) + planPaxCount byId l := by
  simp [planPaxCount]

theorem paxCount_le_of_checks {a : Assignment} {pax : ℚ}
    (hx : 0 ≤ pax) (hpax : a.unitType = "passengers" → a.amount ≤ pax) :
    paxCount a ≤ pax := by
  unfold paxCount
  split_ifs with hu
  · exact hpax hu
  · exact hx

/-- Invariant behind claim C5: from non-negative remaining payload and pax,
the suffix of the loading loop loads at most the remaining capacities. -/
theorem loadGo_bounds (byId : ℕ → Assignment) (ip : ℚ) (aid : ℕ) (rest : List (ℕ × ℚ)) :
    ∀ payload pax : ℚ, 0 ≤ payload → 0 ≤ pax →
      planWeight byId (loadAssignmentsGo byId ip aid rest payload pax).2 ≤ payload ∧
        planPaxCount byId (loadAssignmentsGo byId ip aid rest payload pax).2 ≤ pax := by
  induction rest with
  | nil =>
    intro payload pax hp hx
    simpa [loadAssignmentsGo, planWeight, planPaxCount] using ⟨hp, hx⟩
  | cons head rest ih =>
    obtain ⟨i, v⟩ := head
    intro payload pax hp hx
    simp only [loadAssignmentsGo]
    split_ifs with hskip hload hexcl hu
    · exact ih payload pax hp hx
    · -- loaded and exclusive: break with the singleton plan
      obtain ⟨hbind, hpax, hw⟩ := hload
      simp only [planWeight_cons, planWeight_nil, planPaxCount_cons, planPaxCount_nil,
        add_zero]
      exact ⟨hw, paxCount_le_of_checks hx hpax⟩
    · -- loaded passenger job: recurse with both capacities reduced
      obtain ⟨hbind, hpax, hw⟩ := hload
      have hp' : 0 ≤ payload - effectiveWeight (byId i) := by linarith
      have hx' : 0 ≤ pax - (byId i).amount := by linarith [hpax hu]
      have hrec := ih (payload - effectiveWeight (byId i)) (pax - (byId i).amount) hp' hx'
      simp only [planWeight_cons, planPaxCount_cons]
      constructor
      · linarith [hrec.1]
      · unfold paxCount
        rw [if_pos hu]
        linarith [hrec.2]
    · -- loaded cargo job: recurse with the payload reduced
      obtain ⟨hbind, hpax, hw⟩ := hload
      have hp' : 0 ≤ payload - effectiveWeight (byId i) := by linarith
      have hrec := ih (payload - effectiveWeight (byId i)) pax hp' hx
      simp only [planWeight_cons, planPaxCount_cons]
      constructor
      · linarith [hrec.1]
      · unfold paxCount
        rw [if_neg hu]
        linarith [hrec.2]
    · exact ih payload pax hp hx

/-- Invariant behind claim C6: nothing the loader loads is an All-In job
bound to a different aircraft, whatever the ranking and capacities. -/
theorem loadGo_allin_bound (byId : ℕ → Assignment) (ip : ℚ) (aid : ℕ)
    (rest : List (ℕ × ℚ)) :
    ∀ payload pax : ℚ, ∀ j ∈ (loadAssignmentsGo byId ip aid rest payload pax).2,
      (byId j.1).tripType = "All-In" → (byId j.1).aircraftId = aid := by
  induction rest with
  | nil =>
    intro payload pax j hj
    simp [loadAssignmentsGo] at hj
  | cons head rest ih =>
    obtain ⟨i, v⟩ := head
    intro payload pax j hj ht
    simp only [loadAssignmentsGo] at hj
    split_ifs at hj with hskip hload hexcl hu
    · exact ih payload pax j hj ht
    · rcases List.mem_singleton.mp hj with rfl
      exact (hload.1 ht).symm
    · rcases List.mem_cons.mp hj with rfl | hj'
      · exact (hload.1 ht).symm
      · exact ih _ _ j hj' ht
    · rcases List.mem_cons.mp hj with rfl | hj'
      · exact (hload.1 ht).symm
      · exact ih _ _ j hj' ht
    · exact ih payload pax j hj ht

/-- Claim C6: an All-In job never appears in a plan built for an aircraft
identifier other than its bound identifier. -/
theorem load_assignments_allin_binding (ranking : List (ℕ × ℚ)) (byId : ℕ → Assignment)
    (startPayload startPax : ℚ) (aircraft_id : ℕ) (j : ℕ × String)
    (hj : j ∈ (load_assignments ranking byId startPayload startPax aircraft_id).2)
    (ht : (byId j.1).tripType = "All-In") :
    (byId j.1).aircraftId = aircraft_id := by
  unfold load_assignments at hj
  exact loadGo_allin_bound byId startPayload aircraft_id ranking startPayload startPax j hj ht

/-- Witness for claim C6: a concrete run in which the All-In job bound to
aircraft 5 is loaded onto aircraft 5. -/
theorem load_assignments_allin_binding_witness :
    (Assignment.aircraftId ⟨2, "kg", 10, 100, "Goods", "All-In", 5⟩ : ℕ) = 5 :=
  load_assignments_allin_binding [(2, 10)]
    (fun _ => ⟨2, "kg", 10, 100, "Goods", "All-In", 5⟩) 1000 50 5
    (2, assignmentName ⟨2, "kg", 10, 100, "Goods", "All-In", 5⟩)
    (by
      rw [show (load_assignments [(2, 10)]
          (fun _ => ⟨2, "kg", 10, 100, "Goods", "All-In", 5⟩) 1000 50 5).2 =
          [(2, assignmentName ⟨2, "kg", 10, 100, "Goods", "All-In", 5⟩)] from rfl]
      exact List.mem_singleton.mpr rfl)
    rfl

/-- Claim C5: the loader never exceeds non-negative starting payload (with
passengers converted at 77 kg each) nor non-negative starting pax seats. -/
theorem load_assignments_capacity_bound (ranking : List (ℕ × ℚ)) (byId : ℕ → Assignment)
    (aircraft_id : ℕ) (startPayload startPax : ℚ)
    (hp : 0 ≤ startPayload) (hx : 0 ≤ startPax) :
    planWeight byId (load_assignments ranking byId startPayload startPax aircraft_id).2
        ≤ startPayload ∧
      planPaxCount byId (load_assignments ranking byId startPayload startPax aircraft_id).2
        ≤ startPax := by
  unfold load_assignments
  exact loadGo_bounds byId startPayload aircraft_id ranking startPayload startPax hp hx

/-- Witness for claim C5 on a concrete ranking, job table and capacities. -/
theorem load_assignments_capacity_bound_witness :
    (0:ℚ) ≤ 1000 ∧ (0:ℚ) ≤ 50 ∧
      planWeight (fun _ => ⟨1, "kg", 10, 100, "Goods", "Trip-Only", 0⟩)
          (load_assignments [(1, 10)]
            (fun _ => ⟨1, "kg", 10, 100, "Goods", "Trip-Only", 0⟩) 1000 50 7).2 ≤ 1000 ∧
      planPaxCount (fun _ => ⟨1, "kg", 10, 100, "Goods", "Trip-Only", 0⟩)
          (load_assignments [(1, 10)]
            (fun _ => ⟨1, "kg", 10, 100, "Goods", "Trip-Only", 0⟩) 1000 50 7).2 ≤ 50 :=
  ⟨by norm_num, by norm_num,
    (load_assignments_capacity_bound [(1, 10)]
      (fun _ => ⟨1, "kg", 10, 100, "Goods", "Trip-Only", 0⟩) 7 1000 50
      (by norm_num) (by norm_num)).1,
    (load_assignments_capacity_bound [(1, 10)]
      (fun _ => ⟨1, "kg", 10, 100, "Goods", "Trip-Only", 0⟩) 7 1000 50
      (by norm_num) (by norm_num)).2⟩

theorem effectiveWeight_pos {a : Assignment} (h : 0 < a.amount) : 0 < effectiveWeight a := by
  unfold effectiveWeight
  split_ifs
  · exact mul_pos h (by norm_num [Aircraft.PAX_WEIGHT_KG])
  · exact h

/-- Once the loader has committed any positive-amount job (remaining payload
strictly below its starting value), no exclusive job is ever loaded. -/
theorem loadGo_no_exclusive (byId : ℕ → Assignment) (ip : ℚ) (aid : ℕ)
    (rest : List (ℕ × ℚ)) :
    ∀ payload pax : ℚ, (∀ q ∈ rest, 0 < (byId q.1).amount) → payload < ip →
      ∀ j ∈ (loadAssignmentsGo byId ip aid rest payload pax).2,
        ¬ isExclusive (byId j.1) = true := by
  induction rest with
  | nil =>
    intro payload pax _ _ j hj
    simp [loadAssignmentsGo] at hj
  | cons head rest ih =>
    obtain ⟨i, v⟩ := head
    intro payload pax hamt hlt j hj
    have hamt_head : 0 < (byId i).amount := hamt (i, v) (List.mem_cons_self _ _)
    have hamt_rest : ∀ q ∈ rest, 0 < (byId q.1).amount :=
      fun q hq => hamt q (List.mem_cons_of_mem _ hq)
    simp only [loadAssignmentsGo] at hj
    split_ifs at hj with hskip hload hexcl hu
    · exact ih payload pax hamt_rest hlt j hj
    · have hpe : payload = ip := by
        by_contra hne
        exact hskip ⟨hexcl, hne⟩
      exact absurd hpe (ne_of_lt hlt)
    · rcases List.mem_cons.mp hj with rfl | hj'
      · exact hexcl
      · refine ih (payload - effectiveWeight (byId i)) (pax - (byId i).amount) hamt_rest
          ?_ j hj'
        have := effectiveWeight_pos hamt_head
        linarith
    · rcases List.mem_cons.mp hj with rfl | hj'
      · exact hexcl
      · refine ih (payload - effectiveWeight (byId i)) pax hamt_rest ?_ j hj'
        have := effectiveWeight_pos hamt_head
        linarith
    · exact ih payload pax hamt_rest hlt j hj

/-- From the untouched starting payload, a plan containing an exclusive job
is exactly that single job (all ranked amounts positive). -/
theorem loadGo_exclusive_singleton (byId : ℕ → Assignment) (ip : ℚ) (aid : ℕ)
    (rest : List (ℕ × ℚ)) :
    ∀ pax : ℚ, (∀ q ∈ rest, 0 < (byId q.1).amount) →
      ∀ j ∈ (loadAssignmentsGo byId ip aid rest ip pax).2,
        isExclusive (byId j.1) = true →
        (loadAssignmentsGo byId ip aid rest ip pax).2 = [j] := by
  induction rest with
  | nil =>
    intro pax _ j hj
    simp [loadAssignmentsGo] at hj
  | cons head rest ih =>
    obtain ⟨i, v⟩ := head
    intro pax hamt j hj hex
    have hamt_head : 0 < (byId i).amount := hamt (i, v) (List.mem_cons_self _ _)
    have hamt_rest : ∀ q ∈ rest, 0 < (byId q.1).amount :=
      fun q hq => hamt q (List.mem_cons_of_mem _ hq)
    simp only [loadAssignmentsGo] at hj ⊢
    split_ifs at hj ⊢ with hskip hload hexcl hu
    · exact absurd rfl hskip.2
    · rcases List.mem_singleton.mp hj with rfl
      rfl
    · rcases List.mem_cons.mp hj with rfl | hj'
      · exact absurd hex hexcl
      · exact absurd hex (loadGo_no_exclusive byId ip aid rest
          (ip - effectiveWeight (byId i)) (pax - (byId i).amount) hamt_rest
          (by linarith [effectiveWeight_pos hamt_head]) j hj')
    · rcases List.mem_cons.mp hj with rfl | hj'
      · exact absurd hex hexcl
      · exact absurd hex (loadGo_no_exclusive byId ip aid rest
          (ip - effectiveWeight (byId i)) pax hamt_rest
          (by linarith [effectiveWeight_pos hamt_head]) j hj')
    · exact ih pax hamt_rest j hj hex

/-- Every entry of a ranking produced by `order_assignment_by_value` resolves
through a consistent job table to a job with positive amount. -/
theorem mem_ranking_amount_pos (asgs : List Assignment) (byId : ℕ → Assignment)
    (hby : ∀ a ∈ asgs, byId a.id = a) :
    ∀ q ∈ order_assignment_by_value asgs, 0 < (byId q.1).amount := by
  intro q hq
  rw [order_assignment_by_value, List.mem_insertionSort] at hq
  obtain ⟨a, ha, rfl⟩ := List.mem_map.mp hq
  obtain ⟨hmem, hcond⟩ := List.mem_filter.mp ha
  simp only [Bool.and_eq_true, decide_eq_true_eq] at hcond
  show 0 < (byId a.id).amount
  rw [hby a hmem]
  exact hcond.2

/-- Claim C4: for a ranking produced by `order_assignment_by_value` over a
job table consistent with the ranked jobs, a plan that contains an exclusive
(VIP or All-In) job is exactly that one job. -/
theorem load_assignments_exclusive_isolated (asgs : List Assignment) (byId : ℕ → Assignment)
    (hby : ∀ a ∈ asgs, byId a.id = a) (startPayload startPax : ℚ) (aircraft_id : ℕ)
    (j : ℕ × String)
    (hj : j ∈ (load_assignments (order_assignment_by_value asgs) byId startPayload startPax
        aircraft_id).2)
    (hex : isExclusive (byId j.1) = true) :
    (load_assignments (order_assignment_by_value asgs) byId startPayload startPax
        aircraft_id).2 = [j] := by
  unfold load_assignments at hj ⊢
  exact loadGo_exclusive_singleton byId startPayload aircraft_id
    (order_assignment_by_value asgs) startPax
    (mem_ranking_amount_pos asgs byId hby) j hj hex

/-- Witness for claim C4: a concrete run in which a VIP job is ranked,
loaded, and forms the whole plan. -/
theorem load_assignments_exclusive_isolated_witness :
    (load_assignments (order_assignment_by_value [⟨1, "kg", 10, 100, "Stuff", "VIP", 0⟩])
        (fun _ => ⟨1, "kg", 10, 100, "Stuff", "VIP", 0⟩) 1000 50 7).2 =
      [(1, assignmentName ⟨1, "kg", 10, 100, "Stuff", "VIP", 0⟩)] :=
  load_assignments_exclusive_isolated [⟨1, "kg", 10, 100, "Stuff", "VIP", 0⟩]
    (fun _ => ⟨1, "kg", 10, 100, "Stuff", "VIP", 0⟩)
    (by
      intro a ha
      rw [List.mem_singleton] at ha
      rw [ha]) 1000 50 7
    (1, assignmentName ⟨1, "kg", 10, 100, "Stuff", "VIP", 0⟩)
    (by
      rw [show (load_assignments
          (order_assignment_by_value [⟨1, "kg", 10, 100, "Stuff", "VIP", 0⟩])
          (fun _ => ⟨1, "kg", 10, 100, "Stuff", "VIP", 0⟩) 1000 50 7).2 =
          [(1, assignmentName ⟨1, "kg", 10, 100, "Stuff", "VIP", 0⟩)] from rfl]
      exact List.mem_singleton.mpr rfl)
    rfl

/-- Claim C7: over jobs with unique identifiers, `order_assignment_by_value`
returns exactly the positive-pay, positive-amount jobs mapped to their value
density (a permutation of `valueList`), sorted descending by density, with
tied densities kept in their original input order. -/
theorem order_assignment_by_value_spec (asgs : List Assignment)
    (_hnd : (asgs.map Assignment.id).Nodup) :
    (order_assignment_by_value asgs).Perm (valueList asgs) ∧
      (order_assignment_by_value asgs).Sorted densityGE ∧
      ∀ x y : ℕ × ℚ, [x, y].Sublist (valueList asgs) → x.2 = y.2 →
        [x, y].Sublist (order_assignment_by_value asgs) := by
  refine ⟨List.perm_insertionSort densityGE (valueList asgs),
    List.sorted_insertionSort densityGE (valueList asgs), ?_⟩
  intro x y hs he
  exact List.pair_sublist_insertionSort (le_of_eq he.symm) hs

/-- Witness for claim C7 on a concrete two-job list with unique ids. -/
theorem order_assignment_by_value_spec_witness :
    (order_assignment_by_value [⟨1, "kg", 10, 100, "A", "Trip-Only", 0⟩,
        ⟨2, "passengers", 2, 300, "B", "Trip-Only", 0⟩]).Perm
        (valueList [⟨1, "kg", 10, 100, "A", "Trip-Only", 0⟩,
          ⟨2, "passengers", 2, 300, "B", "Trip-Only", 0⟩]) ∧
      (order_assignment_by_value [⟨1, "kg", 10, 100, "A", "Trip-Only", 0⟩,
        ⟨2, "passengers", 2, 300, "B", "Trip-Only", 0⟩]).Sorted densityGE ∧
      ∀ x y : ℕ × ℚ,
        [x, y].Sublist (valueList [⟨1, "kg", 10, 100, "A", "Trip-Only", 0⟩,
          ⟨2, "passengers", 2, 300, "B", "Trip-Only", 0⟩]) → x.2 = y.2 →
        [x, y].Sublist (order_assignment_by_value [⟨1, "kg", 10, 100, "A", "Trip-Only", 0⟩,
          ⟨2, "passengers", 2, 300, "B", "Trip-Only", 0⟩]) :=
  order_assignment_by_value_spec
    [⟨1, "kg", 10, 100, "A", "Trip-Only", 0⟩, ⟨2, "passengers", 2, 300, "B", "Trip-Only", 0⟩]
    (by decide)

/-- Claim C9: `plane_loader` fails with `PlaneLoadingError` exactly when
neither `aircraft_data` nor both of `max_payload` and `max_pax` are
supplied. -/
theorem plane_loader_error_iff (assignments : List Assignment) (aircraft_id : ℕ)
    (max_payload max_pax : Option ℚ) (fuel_pct : ℚ) (aircraft_data : Option Aircraft) :
    raisedError (plane_loader assignments aircraft_id max_payload max_pax fuel_pct
        aircraft_data) = true ↔
      aircraft_data = none ∧ (max_payload = none ∨ max_pax = none) := by
  cases aircraft_data with
  | some d => simp [plane_loader, raisedError]
  | none =>
    cases max_payload with
    | some p =>
      cases max_pax with
      | some x => simp [plane_loader, raisedError]
      | none => simp [plane_loader, raisedError]
    | none =>
      cases max_pax with
      | some x => simp [plane_loader, raisedError]
      | none => simp [plane_loader, raisedError]

/-- Claim C10: when `aircraft_data` is supplied, the explicit `max_payload`
and `max_pax` arguments have no effect on the result of `plane_loader`. -/
theorem plane_loader_profile_precedence (assignments : List Assignment) (aircraft_id : ℕ)
    (max_payload max_pax : Option ℚ) (fuel_pct : ℚ) (d : Aircraft) :
    plane_loader assignments aircraft_id max_payload max_pax fuel_pct (some d) =
      plane_loader assignments aircraft_id none none fuel_pct (some d) := rfl

theorem radiansOfDegrees_zero : radiansOfDegrees 0 = 0 := by
  unfold radiansOfDegrees
  ring

theorem radiansOfDegrees_180 : radiansOfDegrees 180 = Real.pi := by
  unfold radiansOfDegrees
  ring

theorem earth_radius_eq : EARTH_RADIUS_KM = 637101 / 100 := by
  unfold EARTH_RADIUS_KM
  norm_num

/-- The box the code computes for a 200 km search circle centred on the
antimeridian point (lat 0, lon 180): the max longitude wraps below the min
longitude. -/
theorem bounding_box_at_antimeridian :
    (GeoLocation.ofDegrees 0 180).bounding_coordinates 200 EARTH_RADIUS_KM =
      (degreesOfRadians (-(200 / EARTH_RADIUS_KM)),
        degreesOfRadians (Real.pi - 200 / EARTH_RADIUS_KM),
        degreesOfRadians (200 / EARTH_RADIUS_KM),
        degreesOfRadians (200 / EARTH_RADIUS_KM - Real.pi)) := by
  have hπ3 : (3:ℝ) < Real.pi := Real.pi_gt_three
  have hd : (200:ℝ) / EARTH_RADIUS_KM = 20000 / 637101 := by
    rw [earth_radius_eq]
    norm_num
  have hd_pos : (0:ℝ) < 200 / EARTH_RADIUS_KM := by
    rw [hd]
    norm_num
  have hd_lt : (200:ℝ) / EARTH_RADIUS_KM < 1 := by
    rw [hd]
    norm_num
  unfold GeoLocation.bounding_coordinates
  simp only [GeoLocation.ofDegrees, radiansOfDegrees_zero, radiansOfDegrees_180]
  rw [if_pos (by
    constructor
    · unfold MIN_LAT
      linarith
    · unfold MAX_LAT
      linarith)]
  have hdelta : Real.arcsin (Real.sin (200 / EARTH_RADIUS_KM) / Real.cos 0) =
      200 / EARTH_RADIUS_KM := by
    rw [Real.cos_zero, div_one]
    exact Real.arcsin_sin (by linarith) (by linarith)
  rw [hdelta]
  rw [if_neg (by
    unfold MIN_LON
    push_neg
    linarith)]
  rw [if_pos (by
    unfold MAX_LON
    linarith)]
  rw [show (0:ℝ) - 200 / EARTH_RADIUS_KM = -(200 / EARTH_RADIUS_KM) by ring,
    show (0:ℝ) + 200 / EARTH_RADIUS_KM = 200 / EARTH_RADIUS_KM by ring,
    show Real.pi + 200 / EARTH_RADIUS_KM - 2 * Real.pi =
      200 / EARTH_RADIUS_KM - Real.pi by ring]

/-- Claim C1 (code-bug demonstration): the airport at (lat 0, lon -179) is
about 111 km from the centre (lat 0, lon 180) - well within a 200 km search
radius - yet it fails the caller's rectangular filter on the box
`bounding_coordinates` returns, because the max longitude wrapped below the
min longitude and the filter conjoins `min_lon <= lon <= max_lon`. -/
theorem bounding_box_prefilter_false_negative :
    sphericalDistanceKm (GeoLocation.ofDegrees 0 180) (GeoLocation.ofDegrees 0 (-179)) ≤ 200 ∧
      ¬ inBoundingBox
          ((GeoLocation.ofDegrees 0 180).bounding_coordinates 200 EARTH_RADIUS_KM)
          0 (-179) := by
  have hπ3 : (3:ℝ) < Real.pi := Real.pi_gt_three
  have hπ315 : Real.pi < 3.15 := Real.pi_lt_d2
  have hπ0 : (0:ℝ) < Real.pi := Real.pi_pos
  constructor
  · -- great-circle distance from (0,180) to (0,-179) is R * (pi/180)
    have hangle : sphericalCentralAngle (GeoLocation.ofDegrees 0 180)
        (GeoLocation.ofDegrees 0 (-179)) = Real.pi / 180 := by
      unfold sphericalCentralAngle
      simp only [GeoLocation.ofDegrees, radiansOfDegrees_zero, Real.sin_zero, Real.cos_zero]
      rw [show radiansOfDegrees 180 - radiansOfDegrees (-179) =
          2 * Real.pi - Real.pi / 180 by unfold radiansOfDegrees; ring]
      rw [Real.cos_two_pi_sub]
      rw [show (0:ℝ) * 0 + 1 * 1 * Real.cos (Real.pi / 180) = Real.cos (Real.pi / 180) by ring]
      exact Real.arccos_cos (by linarith) (by linarith)
    unfold sphericalDistanceKm
    rw [hangle, earth_radius_eq]
    nlinarith
  · intro hbox
    rw [bounding_box_at_antimeridian] at hbox
    have h1 := hbox.1
    unfold degreesOfRadians at h1
    rw [earth_radius_eq] at h1
    have h1' : (Real.pi - 200 / (637101 / 100)) * 180 ≤ -179 * Real.pi :=
      (div_le_iff₀ hπ0).mp h1
    nlinarith
